import Mathlib

/-!
Shallow embedding of the paste controllers of the linkVault backend
(file `src/controllers/paste.controller.js`) together with the routes
and the user controller they sit next to.

Modelling conventions, matching the JavaScript source:

* the Supabase metadata table `pastes` is a `List PasteRecord` (`Db`);
  the select `.eq("slug", slug).single()` is the first row whose slug
  matches (`findRecord`); a select error is modelled as no row;
* the Supabase storage bucket is a read oracle `String → Option String`
  from storage path to stored bytes; `none` models a failed download,
  whose unchecked `data` is `null`, so `blob.arrayBuffer()` throws and
  the error middleware answers 500 (`AccessResult.internalError`);
* fallible writes (storage remove, row delete) take a Boolean error
  oracle; the storage upload and the row insert in `createPaste` also
  take one, and the controller never inspects it, exactly as in the
  source, where both results are discarded;
* `bcrypt.compare` is an opaque `verify : String → String → Bool` and
  `bcrypt.hash` an opaque `hash : String → String`;
* timestamps are integers (milliseconds since the Unix epoch);
  `new Date(t)` of a stored timestamp has value `t`, and `new Date(null)`
  is the epoch `0`, exactly as in JavaScript (`jsDateMillis`);
* JavaScript truthiness of an optional string (absent, `null` and `""`
  are falsy) is `strTruthy`; numeric form fields arrive already parsed
  as integers, with `none` for an absent field.

Every handler returns an `Outcome`: the HTTP result, the metadata table
after the request, and the ordered list of external calls it made
(`Ev`), so that ordering properties (which store is touched before
which) are statements about the event list.
-/

structure PasteRecord where
  slug : String
  userId : String
  filename : String
  mimetype : String
  storagePath : String
  passwordHash : Option String
  expiresAt : Option Int
  maxViews : Option Int
  maxDownloads : Option Int
  viewCount : Int
  downloadCount : Int
  createdAt : Int
deriving DecidableEq, Repr

abbrev Db := List PasteRecord

/-- The select `.from("pastes").select("*").eq("slug", slug).single()`:
the first row whose slug matches. -/
def findRecord (db : Db) (slug : String) : Option PasteRecord :=
  db.find? (fun r => r.slug == slug)

/-- JavaScript truthiness of an optional string: `undefined`, `null` and
`""` are falsy, every other string is truthy. -/
def strTruthy : Option String → Bool
  | none => false
  | some s => !(s == "")

/-- Millisecond value of `new Date(e)` for a stored `expires_at` column:
a stored timestamp is its own value and `new Date(null)` is the Unix
epoch `0`. -/
def jsDateMillis : Option Int → Int
  | none => 0
  | some t => t

/-- The expiry test `new Date(paste.expires_at) <= new Date()` used by
`getPaste` and `downloadPaste`. -/
def isExpiredJs (e : Option Int) (now : Int) : Bool :=
  decide (jsDateMillis e ≤ now)

/-- The limit test `paste.max_x !== null && paste.x_count >= paste.max_x`. -/
def atLimit (cap : Option Int) (count : Int) : Bool :=
  match cap with
  | none => false
  | some m => decide (m ≤ count)

/-- The derived flag of `getUserPastes`:
`paste.expires_at && new Date(paste.expires_at) <= new Date()`.
Unlike `isExpiredJs`, a `null` column short-circuits to `false` here. -/
def expiredFlag (e : Option Int) (now : Int) : Bool :=
  match e with
  | none => false
  | some t => decide (t ≤ now)

/-- External calls a handler can make, in the order it makes them. -/
inductive Ev where
  | dbSelect (slug : String)
  | dbUpdateView (slug : String) (newCount : Int)
  | dbUpdateDownload (slug : String) (newCount : Int)
  | blobGet (path : String)
  | blobPut (path : String)
  | blobRemove (path : String)
  | dbInsert (slug : String)
  | dbDelete (slug : String)
deriving DecidableEq, Repr

/-- The `metadata` object returned by `previewPaste`. -/
structure PreviewMeta where
  slug : String
  filename : String
  mimetype : String
  createdAt : Int
  expiresAt : Option Int
  viewCount : Int
  downloadCount : Int
  maxViews : Option Int
  maxDownloads : Option Int
  passwordProtected : Bool
deriving DecidableEq, Repr

def mkPreviewMeta (p : PasteRecord) : PreviewMeta :=
  ⟨p.slug, p.filename, p.mimetype, p.createdAt, p.expiresAt,
   p.viewCount, p.downloadCount, p.maxViews, p.maxDownloads,
   strTruthy p.passwordHash⟩

/-- The distinct HTTP responses of the paste controllers. -/
inductive AccessResult where
  | notFound
  | expired
  | viewLimitReached
  | downloadLimitReached
  | passwordRequired
  | invalidPassword
  | inlineFile (mimetype filename bytes : String)
  | attachmentFile (mimetype filename bytes : String)
  | previewJson (meta : PreviewMeta) (fileBytes : String)
  | internalError
  | badRequestMissing
  | badRequestExpires
  | created (slug : String) (protectedFlag : Bool)
  | deleted
  | storageDeleteFailed
  | metadataDeleteFailed
deriving DecidableEq, Repr

/-- A handler run: HTTP result, table after the request, external calls made. -/
structure Outcome where
  result : AccessResult
  db : Db
  events : List Ev
deriving DecidableEq, Repr

/-- The five decisions that deny access on the binary-serving handlers. -/
def isDenied : AccessResult → Bool
  | AccessResult.notFound => true
  | AccessResult.expired => true
  | AccessResult.viewLimitReached => true
  | AccessResult.downloadLimitReached => true
  | AccessResult.passwordRequired => true
  | AccessResult.invalidPassword => true
  | _ => false

/-- The password gate of `getPaste`: when `paste.password_hash` is
truthy, a falsy query password yields 401, a password failing
`bcrypt.compare` yields 403, and otherwise the gate passes. -/
def pwGate (verify : String → String → Bool) (hash pw : Option String) :
    Option AccessResult :=
  if strTruthy hash then
    if !(strTruthy pw) then some AccessResult.passwordRequired
    else if !(verify (pw.getD "") (hash.getD "")) then
      some AccessResult.invalidPassword
    else none
  else none

/-- The row update `.update(view_count to paste.view_count + 1).eq("slug", slug)`
applied to one row: the absolute value `n` is written to every row whose
slug matches. -/
def setView (slug : String) (n : Int) (x : PasteRecord) : PasteRecord :=
  if x.slug == slug then { x with viewCount := n } else x

/-- Analogue of `setView` for the `download_count` column. -/
def setDownload (slug : String) (n : Int) (x : PasteRecord) : PasteRecord :=
  if x.slug == slug then { x with downloadCount := n } else x

/-- `getPaste`: select, expiry check, view-limit check, password gate,
increment of `view_count`, blob download, inline send. -/
def getPaste (db : Db) (blobs : String → Option String)
    (verify : String → String → Bool) (now : Int)
    (slug : String) (password : Option String) : Outcome :=
  match findRecord db slug with
  | none => ⟨AccessResult.notFound, db, [Ev.dbSelect slug]⟩
  | some paste =>
    if isExpiredJs paste.expiresAt now then
      ⟨AccessResult.expired, db, [Ev.dbSelect slug]⟩
    else if atLimit paste.maxViews paste.viewCount then
      ⟨AccessResult.viewLimitReached, db, [Ev.dbSelect slug]⟩
    else
      match pwGate verify paste.passwordHash password with
      | some denial => ⟨denial, db, [Ev.dbSelect slug]⟩
      | none =>
        match blobs paste.storagePath with
        | none =>
          ⟨AccessResult.internalError,
           db.map (setView slug (paste.viewCount + 1)),
           [Ev.dbSelect slug, Ev.dbUpdateView slug (paste.viewCount + 1),
            Ev.blobGet paste.storagePath]⟩
        | some bytes =>
          ⟨AccessResult.inlineFile paste.mimetype paste.filename bytes,
           db.map (setView slug (paste.viewCount + 1)),
           [Ev.dbSelect slug, Ev.dbUpdateView slug (paste.viewCount + 1),
            Ev.blobGet paste.storagePath]⟩

/-- `downloadPaste`: select, expiry check, download-limit check,
increment of `download_count`, blob download, attachment send.
The source reads no password anywhere in this handler. -/
def downloadPaste (db : Db) (blobs : String → Option String)
    (now : Int) (slug : String) : Outcome :=
  match findRecord db slug with
  | none => ⟨AccessResult.notFound, db, [Ev.dbSelect slug]⟩
  | some paste =>
    if isExpiredJs paste.expiresAt now then
      ⟨AccessResult.expired, db, [Ev.dbSelect slug]⟩
    else if atLimit paste.maxDownloads paste.downloadCount then
      ⟨AccessResult.downloadLimitReached, db, [Ev.dbSelect slug]⟩
    else
      match blobs paste.storagePath with
      | none =>
        ⟨AccessResult.internalError,
         db.map (setDownload slug (paste.downloadCount + 1)),
         [Ev.dbSelect slug, Ev.dbUpdateDownload slug (paste.downloadCount + 1),
          Ev.blobGet paste.storagePath]⟩
      | some bytes =>
        ⟨AccessResult.attachmentFile paste.mimetype paste.filename bytes,
         db.map (setDownload slug (paste.downloadCount + 1)),
         [Ev.dbSelect slug, Ev.dbUpdateDownload slug (paste.downloadCount + 1),
          Ev.blobGet paste.storagePath]⟩

/-- `previewPaste`: select, blob download, JSON with metadata and the
file body. The source checks neither expiry nor limits here and updates
no counter. -/
def previewPaste (db : Db) (blobs : String → Option String)
    (slug : String) : Outcome :=
  match findRecord db slug with
  | none => ⟨AccessResult.notFound, db, [Ev.dbSelect slug]⟩
  | some paste =>
    match blobs paste.storagePath with
    | none =>
      ⟨AccessResult.internalError, db,
       [Ev.dbSelect slug, Ev.blobGet paste.storagePath]⟩
    | some bytes =>
      ⟨AccessResult.previewJson (mkPreviewMeta paste) bytes, db,
       [Ev.dbSelect slug, Ev.blobGet paste.storagePath]⟩

/-- `deletePaste`: select, storage remove, and only when the remove
reported no error, the metadata delete. `removeErr` and `deleteErr`
are the error fields of the two Supabase calls. -/
def deletePaste (db : Db) (removeErr deleteErr : Bool)
    (slug : String) : Outcome :=
  match findRecord db slug with
  | none => ⟨AccessResult.notFound, db, [Ev.dbSelect slug]⟩
  | some paste =>
    if removeErr then
      ⟨AccessResult.storageDeleteFailed, db,
       [Ev.dbSelect slug, Ev.blobRemove paste.storagePath]⟩
    else if deleteErr then
      ⟨AccessResult.metadataDeleteFailed, db,
       [Ev.dbSelect slug, Ev.blobRemove paste.storagePath, Ev.dbDelete slug]⟩
    else
      ⟨AccessResult.deleted,
       db.filter (fun x => !(x.slug == slug)),
       [Ev.dbSelect slug, Ev.blobRemove paste.storagePath, Ev.dbDelete slug]⟩

/-- A multer in-memory upload. -/
structure UploadFile where
  originalname : String
  mimetype : String
  buffer : String
deriving DecidableEq, Repr

/-- `createPaste`: validation, storage upload, optional password hash,
metadata insert. The source discards the results of both the upload and
the insert, so `uploadErr` influences nothing at all, and `insertErr`
only decides whether the row actually lands in the table, never the
response. `slug` stands for the freshly generated random slug and
`expiresIn` for the already numeric `expires_in` form field. -/
def createPaste (db : Db) (hash : String → String)
    (uploadErr insertErr : Bool) (now : Int) (slug : String)
    (userId password : Option String) (expiresIn : Option Int)
    (maxViews maxDownloads : Option Int)
    (file : Option UploadFile) : Outcome :=
  match file, expiresIn with
  | some f, some mins =>
    if !(strTruthy userId) then ⟨AccessResult.badRequestMissing, db, []⟩
    else if mins ≤ 0 then ⟨AccessResult.badRequestExpires, db, []⟩
    else
      let storagePath := "uploads/" ++ slug ++ "-" ++ f.originalname
      let passwordHash :=
        if strTruthy password then some (hash (password.getD "")) else none
      let record : PasteRecord :=
        ⟨slug, userId.getD "", f.originalname, f.mimetype, storagePath,
         passwordHash, some (now + mins * 60 * 1000), maxViews, maxDownloads,
         0, 0, now⟩
      ⟨AccessResult.created slug (strTruthy passwordHash),
       if insertErr then db else db ++ [record],
       [Ev.blobPut storagePath, Ev.dbInsert slug]⟩
  | _, _ => ⟨AccessResult.badRequestMissing, db, []⟩

/-- One row of the `getUserPastes` response. -/
structure ListEntry where
  slug : String
  filename : String
  mimetype : String
  createdAt : Int
  expiresAt : Option Int
  expired : Bool
  viewCount : Int
  downloadCount : Int
  maxViews : Option Int
  maxDownloads : Option Int
  viewUrl : String
  downloadUrl : String
deriving DecidableEq, Repr

/-- Insertion step of the `created_at` descending order. -/
def insertByCreated (p : PasteRecord) : List PasteRecord → List PasteRecord
  | [] => [p]
  | q :: rest =>
    if q.createdAt ≤ p.createdAt then p :: q :: rest
    else q :: insertByCreated p rest

/-- The `.order("created_at", descending)` of `getUserPastes`. -/
def sortByCreatedDesc : List PasteRecord → List PasteRecord
  | [] => []
  | p :: rest => insertByCreated p (sortByCreatedDesc rest)

def mkListEntry (publicBase backendBase : String) (now : Int)
    (p : PasteRecord) : ListEntry :=
  ⟨p.slug, p.filename, p.mimetype, p.createdAt, p.expiresAt,
   expiredFlag p.expiresAt now, p.viewCount, p.downloadCount,
   p.maxViews, p.maxDownloads,
   publicBase ++ "/p/" ++ p.slug,
   backendBase ++ "/api/pastes/" ++ p.slug ++ "/download"⟩

/-- `getUserPastes`: select by owner ordered by `created_at` descending,
then the read-only projection; `none` models the checked select error
(HTTP 500). No counter is touched. -/
def getUserPastes (db : Db) (listErr : Bool)
    (publicBase backendBase : String) (now : Int)
    (userId : String) : Option (List ListEntry) :=
  if listErr then none
  else
    some ((sortByCreatedDesc (db.filter (fun r => r.userId == userId))).map
      (mkListEntry publicBase backendBase now))

/-! Helper lemmas shared by the claim theorems. -/

theorem setView_slug_eq (slug : String) (n : Int) (x : PasteRecord) :
    (setView slug n x).slug = x.slug := by
  unfold setView; split <;> rfl

theorem setDownload_slug_eq (slug : String) (n : Int) (x : PasteRecord) :
    (setDownload slug n x).slug = x.slug := by
  unfold setDownload; split <;> rfl

theorem findRecord_map_pres (f : PasteRecord → PasteRecord)
    (hpre : ∀ x, (f x).slug = x.slug) :
    ∀ (db : Db) (slug : String) (r : PasteRecord),
      findRecord db slug = some r → findRecord (db.map f) slug = some (f r) := by
  intro db slug
  induction db with
  | nil => intro r h; simp [findRecord] at h
  | cons a rest ih =>
    intro r h
    unfold findRecord at h ⊢
    rw [List.map_cons]
    by_cases hpa : (a.slug == slug) = true
    · rw [@List.find?_cons_of_pos _ (fun x => x.slug == slug) a rest hpa] at h
      have ha : a = r := by injection h
      subst ha
      have hpf : ((f a).slug == slug) = true := by rw [hpre a]; exact hpa
      exact @List.find?_cons_of_pos _ (fun x => x.slug == slug) (f a)
        (rest.map f) hpf
    · rw [@List.find?_cons_of_neg _ (fun x => x.slug == slug) a rest hpa] at h
      have hpf : ¬ ((f a).slug == slug) = true := by rw [hpre a]; exact hpa
      rw [@List.find?_cons_of_neg _ (fun x => x.slug == slug) (f a)
        (rest.map f) hpf]
      exact ih r h

theorem findRecord_matches (db : Db) (slug : String) (r : PasteRecord)
    (h : findRecord db slug = some r) : (r.slug == slug) = true :=
  @List.find?_some PasteRecord (fun x => x.slug == slug) r db h

theorem getPaste_found (db : Db) (blobs : String → Option String)
    (verify : String → String → Bool) (now : Int) (slug : String)
    (pw : Option String) (paste : PasteRecord)
    (h : findRecord db slug = some paste) :
    getPaste db blobs verify now slug pw =
      if isExpiredJs paste.expiresAt now then
        ⟨AccessResult.expired, db, [Ev.dbSelect slug]⟩
      else if atLimit paste.maxViews paste.viewCount then
        ⟨AccessResult.viewLimitReached, db, [Ev.dbSelect slug]⟩
      else
        match pwGate verify paste.passwordHash pw with
        | some denial => ⟨denial, db, [Ev.dbSelect slug]⟩
        | none =>
          match blobs paste.storagePath with
          | none =>
            ⟨AccessResult.internalError,
             db.map (setView slug (paste.viewCount + 1)),
             [Ev.dbSelect slug, Ev.dbUpdateView slug (paste.viewCount + 1),
              Ev.blobGet paste.storagePath]⟩
          | some bytes =>
            ⟨AccessResult.inlineFile paste.mimetype paste.filename bytes,
             db.map (setView slug (paste.viewCount + 1)),
             [Ev.dbSelect slug, Ev.dbUpdateView slug (paste.viewCount + 1),
              Ev.blobGet paste.storagePath]⟩ := by
  unfold getPaste
  rw [h]

theorem downloadPaste_found (db : Db) (blobs : String → Option String)
    (now : Int) (slug : String) (paste : PasteRecord)
    (h : findRecord db slug = some paste) :
    downloadPaste db blobs now slug =
      if isExpiredJs paste.expiresAt now then
        ⟨AccessResult.expired, db, [Ev.dbSelect slug]⟩
      else if atLimit paste.maxDownloads paste.downloadCount then
        ⟨AccessResult.downloadLimitReached, db, [Ev.dbSelect slug]⟩
      else
        match blobs paste.storagePath with
        | none =>
          ⟨AccessResult.internalError,
           db.map (setDownload slug (paste.downloadCount + 1)),
           [Ev.dbSelect slug, Ev.dbUpdateDownload slug (paste.downloadCount + 1),
            Ev.blobGet paste.storagePath]⟩
        | some bytes =>
          ⟨AccessResult.attachmentFile paste.mimetype paste.filename bytes,
           db.map (setDownload slug (paste.downloadCount + 1)),
           [Ev.dbSelect slug, Ev.dbUpdateDownload slug (paste.downloadCount + 1),
            Ev.blobGet paste.storagePath]⟩ := by
  unfold downloadPaste
  rw [h]

theorem previewPaste_found (db : Db) (blobs : String → Option String)
    (slug : String) (paste : PasteRecord)
    (h : findRecord db slug = some paste) :
    previewPaste db blobs slug =
      match blobs paste.storagePath with
      | none =>
        ⟨AccessResult.internalError, db,
         [Ev.dbSelect slug, Ev.blobGet paste.storagePath]⟩
      | some bytes =>
        ⟨AccessResult.previewJson (mkPreviewMeta paste) bytes, db,
         [Ev.dbSelect slug, Ev.blobGet paste.storagePath]⟩ := by
  unfold previewPaste
  rw [h]

theorem deletePaste_found (db : Db) (removeErr deleteErr : Bool)
    (slug : String) (paste : PasteRecord)
    (h : findRecord db slug = some paste) :
    deletePaste db removeErr deleteErr slug =
      if removeErr then
        ⟨AccessResult.storageDeleteFailed, db,
         [Ev.dbSelect slug, Ev.blobRemove paste.storagePath]⟩
      else if deleteErr then
        ⟨AccessResult.metadataDeleteFailed, db,
         [Ev.dbSelect slug, Ev.blobRemove paste.storagePath, Ev.dbDelete slug]⟩
      else
        ⟨AccessResult.deleted,
         db.filter (fun x => !(x.slug == slug)),
         [Ev.dbSelect slug, Ev.blobRemove paste.storagePath, Ev.dbDelete slug]⟩ := by
  unfold deletePaste
  rw [h]

/-! Claim C1. The source checks expiry in `getPaste` and `downloadPaste`
but `previewPaste` has no expiry check at all, so the claim fails for
the Preview access kind. -/

def rX1 : PasteRecord :=
  ⟨"x1", "u1", "a.pdf", "application/pdf", "uploads/x1-a.pdf",
   none, some 0, none, none, 0, 0, 0⟩

/-- C1 counterexample: a record expired since the epoch (expiry 0, accessed at
time 1000), yet Preview does not answer Expired — it serves the metadata and
the file body, because `previewPaste` never looks at `expires_at`. -/
theorem C1_counterexample :
    isExpiredJs rX1.expiresAt 1000 = true
    ∧ (previewPaste [rX1]
        (fun p => if p == "uploads/x1-a.pdf" then some "D" else none)
        "x1").result
      = AccessResult.previewJson (mkPreviewMeta rX1) "D"
    ∧ (previewPaste [rX1]
        (fun p => if p == "uploads/x1-a.pdf" then some "D" else none)
        "x1").result
      ≠ AccessResult.expired := by
  refine ⟨by decide, by decide, by decide⟩

/-- C1 (amended): for a record whose `expires_at` is in the past at access
time, View and Download answer Expired with no further checks — independent of
supplied password, counters and limits, table untouched; Preview, however,
performs no expiry check and, whenever the blob is available, succeeds on the
same expired record with its metadata and file body. -/
theorem C1_expiry_policy (db : Db) (blobs : String → Option String)
    (verify : String → String → Bool) (now : Int) (slug : String)
    (pw : Option String) (r : PasteRecord)
    (hf : findRecord db slug = some r)
    (he : isExpiredJs r.expiresAt now = true) :
    (getPaste db blobs verify now slug pw).result = AccessResult.expired
    ∧ (getPaste db blobs verify now slug pw).db = db
    ∧ (getPaste db blobs verify now slug pw).events = [Ev.dbSelect slug]
    ∧ (downloadPaste db blobs now slug).result = AccessResult.expired
    ∧ (downloadPaste db blobs now slug).db = db
    ∧ (downloadPaste db blobs now slug).events = [Ev.dbSelect slug]
    ∧ (∀ b, blobs r.storagePath = some b →
        (previewPaste db blobs slug).result
          = AccessResult.previewJson (mkPreviewMeta r) b) := by
  rw [getPaste_found db blobs verify now slug pw r hf,
      downloadPaste_found db blobs now slug r hf,
      previewPaste_found db blobs slug r hf]
  refine ⟨by simp [he], by simp [he], by simp [he],
          by simp [he], by simp [he], by simp [he], ?_⟩
  intro b hb
  rw [hb]

def rW1 : PasteRecord :=
  ⟨"e1", "u1", "doc.pdf", "application/pdf", "uploads/e1-doc.pdf",
   some "HASH", some 100, some 1, some 1, 5, 5, 50⟩

theorem C1_expiry_policy_witness :
    (getPaste [rW1]
        (fun p => if p == "uploads/e1-doc.pdf" then some "BYTES" else none)
        (fun _ _ => true) 5000 "e1" (some "pw")).result
      = AccessResult.expired
    ∧ (previewPaste [rW1]
        (fun p => if p == "uploads/e1-doc.pdf" then some "BYTES" else none)
        "e1").result
      = AccessResult.previewJson (mkPreviewMeta rW1) "BYTES" := by
  have h := C1_expiry_policy [rW1]
    (fun p => if p == "uploads/e1-doc.pdf" then some "BYTES" else none)
    (fun _ _ => true) 5000 "e1" (some "pw") rW1 (by decide) (by decide)
  exact ⟨h.1, h.2.2.2.2.2.2 "BYTES" (by decide)⟩

/-! Claim C4. A record with a null `expires_at` is reported Expired by both
binary handlers (`new Date(null)` is the Unix epoch, which is `<=` any
current time), although the spec says an absent expiry never expires and
`getUserPastes` in the same file derives `expired = false` for it. -/

def rX4 : PasteRecord :=
  ⟨"n4", "u4", "a.pdf", "application/pdf", "uploads/n4-a.pdf",
   none, none, none, none, 0, 0, 0⟩

/-- C4: evaluation at the failing input. A record whose `expires_at` is absent
(null) is answered Expired by both View and Download, with the supplied
password irrelevant; yet the `expired` flag that `getUserPastes` computes for
the very same record in the same source file is `false`. The claim is right
and the two binary handlers are wrong. -/
theorem C4_null_expiry_code_bug :
    isExpiredJs none 1700000000000 = true
    ∧ (getPaste [rX4] (fun _ => some "D") (fun _ _ => true)
        1700000000000 "n4" none).result = AccessResult.expired
    ∧ (downloadPaste [rX4] (fun _ => some "D")
        1700000000000 "n4").result = AccessResult.expired
    ∧ expiredFlag none 1700000000000 = false
    ∧ (getUserPastes [rX4] false "P" "B" 1700000000000 "u4").map
        (fun l => l.map ListEntry.expired) = some [false] := by
  refine ⟨by decide, by decide, by decide, by decide, by decide⟩

/-! Claim C5. In `getPaste` the view-limit check sits strictly before the
password gate. -/

/-- C5: the limit check precedes the password check: a non-expired record at
its view cap whose password hash is set is answered LimitReached(view) by View
for every supplied password — absent, wrong or correct; the verifier is never
consulted, the table is unchanged and only the select was issued. -/
theorem C5_limit_before_password (db : Db) (blobs : String → Option String)
    (verify : String → String → Bool) (now : Int) (slug : String)
    (pw : Option String) (r : PasteRecord) (m : Int)
    (hf : findRecord db slug = some r)
    (he : isExpiredJs r.expiresAt now = false)
    (hm : r.maxViews = some m) (hc : m ≤ r.viewCount)
    (hp : strTruthy r.passwordHash = true) :
    (getPaste db blobs verify now slug pw).result
      = AccessResult.viewLimitReached
    ∧ (getPaste db blobs verify now slug pw).db = db
    ∧ (getPaste db blobs verify now slug pw).events = [Ev.dbSelect slug] := by
  have hl : atLimit r.maxViews r.viewCount = true := by
    rw [hm]; simp [atLimit, hc]
  rw [getPaste_found db blobs verify now slug pw r hf]
  refine ⟨by simp [he, hl], by simp [he, hl], by simp [he, hl]⟩

def rW5 : PasteRecord :=
  ⟨"l5", "u5", "b.pdf", "application/pdf", "uploads/l5-b.pdf",
   some "H5", some 9999, some 2, none, 2, 0, 10⟩

theorem C5_limit_before_password_witness :
    (getPaste [rW5] (fun _ => some "D") (fun p h => p == h)
        500 "l5" (some "H5")).result = AccessResult.viewLimitReached := by
  have h := C5_limit_before_password [rW5] (fun _ => some "D")
    (fun p h => p == h) 500 "l5" (some "H5") rW5 2
    (by decide) (by decide) (by decide) (by decide) (by decide)
  exact h.1

/-! Claim C2. `getPaste` implements the password ladder, but
`downloadPaste` reads no password anywhere: a protected record is served
by Download with no password at all. -/

def rX2 : PasteRecord :=
  ⟨"x2", "u1", "a.pdf", "application/pdf", "uploads/x2-a.pdf",
   some "H", some 1000000, none, none, 0, 0, 0⟩

/-- C2 counterexample: a protected (password hash set), unexpired, under-limit
record is served by Download although no password was supplied anywhere — the
handler takes no password, so the answer is the file bytes, not
PasswordRequired. -/
theorem C2_counterexample :
    strTruthy rX2.passwordHash = true
    ∧ isExpiredJs rX2.expiresAt 10 = false
    ∧ (downloadPaste [rX2]
        (fun p => if p == "uploads/x2-a.pdf" then some "D" else none)
        10 "x2").result
      = AccessResult.attachmentFile "application/pdf" "a.pdf" "D"
    ∧ (downloadPaste [rX2]
        (fun p => if p == "uploads/x2-a.pdf" then some "D" else none)
        10 "x2").result
      ≠ AccessResult.passwordRequired := by
  refine ⟨by decide, by decide, by decide, by decide⟩

/-- C2 (amended): on a protected, non-expired, under-limit record, a View with
no truthy supplied password answers PasswordRequired; with a password failing
verification answers InvalidPassword; with a verifying password it is admitted
(the view-counter update is issued and, when the blob is available, the bytes
are served). A Download, by contrast, performs no password check at all: with
no password supplied it is admitted whenever the record is under its download
limit. -/
theorem C2_password_policy (db : Db) (blobs : String → Option String)
    (verify : String → String → Bool) (now : Int) (slug : String)
    (r : PasteRecord)
    (hf : findRecord db slug = some r)
    (he : isExpiredJs r.expiresAt now = false)
    (hl : atLimit r.maxViews r.viewCount = false)
    (hp : strTruthy r.passwordHash = true) :
    (∀ pw, strTruthy pw = false →
      (getPaste db blobs verify now slug pw).result
        = AccessResult.passwordRequired)
    ∧ (∀ s, s ≠ "" → verify s (r.passwordHash.getD "") = false →
      (getPaste db blobs verify now slug (some s)).result
        = AccessResult.invalidPassword)
    ∧ (∀ s, s ≠ "" → verify s (r.passwordHash.getD "") = true →
      Ev.dbUpdateView slug (r.viewCount + 1)
        ∈ (getPaste db blobs verify now slug (some s)).events
      ∧ (∀ b, blobs r.storagePath = some b →
          (getPaste db blobs verify now slug (some s)).result
            = AccessResult.inlineFile r.mimetype r.filename b))
    ∧ (atLimit r.maxDownloads r.downloadCount = false →
      Ev.dbUpdateDownload slug (r.downloadCount + 1)
        ∈ (downloadPaste db blobs now slug).events
      ∧ (∀ b, blobs r.storagePath = some b →
          (downloadPaste db blobs now slug).result
            = AccessResult.attachmentFile r.mimetype r.filename b)) := by
  refine ⟨?_, ?_, ?_, ?_⟩
  · intro pw hpw
    rw [getPaste_found db blobs verify now slug pw r hf]
    simp [he, hl, pwGate, hp, hpw]
  · intro s hs hv
    rw [getPaste_found db blobs verify now slug (some s) r hf]
    have hss : strTruthy (some s) = true := by simp [strTruthy, hs]
    simp [he, hl, pwGate, hp, hss, hv]
  · intro s hs hv
    rw [getPaste_found db blobs verify now slug (some s) r hf]
    have hss : strTruthy (some s) = true := by simp [strTruthy, hs]
    have hg : pwGate verify r.passwordHash (some s) = none := by
      simp [pwGate, hp, hss, hv]
    constructor
    · cases hb : blobs r.storagePath <;> simp [he, hl, hg, hb]
    · intro b hb
      simp [he, hl, hg, hb]
  · intro hdl
    rw [downloadPaste_found db blobs now slug r hf]
    constructor
    · cases hb : blobs r.storagePath <;> simp [he, hdl, hb]
    · intro b hb
      simp [he, hdl, hb]

def rW2 : PasteRecord :=
  ⟨"p2", "u2", "c.pdf", "application/pdf", "uploads/p2-c.pdf",
   some "HH", some 777777, some 9, some 9, 1, 1, 5⟩

theorem C2_password_policy_witness :
    (getPaste [rW2] (fun _ => some "DD") (fun p h => p == h)
        7 "p2" none).result = AccessResult.passwordRequired
    ∧ (getPaste [rW2] (fun _ => some "DD") (fun p h => p == h)
        7 "p2" (some "nope")).result = AccessResult.invalidPassword
    ∧ (getPaste [rW2] (fun _ => some "DD") (fun p h => p == h)
        7 "p2" (some "HH")).result
      = AccessResult.inlineFile "application/pdf" "c.pdf" "DD"
    ∧ (downloadPaste [rW2] (fun _ => some "DD") 7 "p2").result
      = AccessResult.attachmentFile "application/pdf" "c.pdf" "DD" := by
  have h := C2_password_policy [rW2] (fun _ => some "DD") (fun p h => p == h)
    7 "p2" rW2 (by decide) (by decide) (by decide) (by decide)
  refine ⟨h.1 none (by decide), ?_, ?_, ?_⟩
  · exact h.2.1 "nope" (by decide) (by decide)
  · exact (h.2.2.1 "HH" (by decide) (by decide)).2 "DD" (by decide)
  · exact (h.2.2.2 (by decide)).2 "DD" (by decide)

/-! Claim C3. The upload in `createPaste` happens strictly before the
metadata insert, but its result is discarded: a failed upload aborts
nothing, the insert proceeds and the response is 201. -/

def fX3 : UploadFile := ⟨"f.pdf", "application/pdf", "PDFBYTES"⟩

/-- C3 counterexample: with the upload reporting an error (first Boolean oracle
`true`) and the insert succeeding, create still answers Created and the
metadata row is inserted — the failed upload aborts nothing, leaving a record
with no blob. -/
theorem C3_counterexample :
    (createPaste [] (fun s => s ++ "#h") true false 0 "s3" (some "u1") none
        (some 5) none none (some fX3)).result
      = AccessResult.created "s3" false
    ∧ (createPaste [] (fun s => s ++ "#h") true false 0 "s3" (some "u1") none
        (some 5) none none (some fX3)).db
      = [⟨"s3", "u1", "f.pdf", "application/pdf", "uploads/s3-f.pdf", none,
          some 300000, none, none, 0, 0, 0⟩] := by
  refine ⟨by decide, by decide⟩

/-- C3 (amended): for every valid create request the blob upload is attempted
strictly before the metadata insert — the external calls are exactly upload
then insert — but the upload outcome is never inspected: the whole outcome is
independent of the upload error, create answers Created regardless, and
whenever the insert itself succeeds the metadata row is inserted even after a
failed upload. -/
theorem C3_create_ordering (db : Db) (hash : String → String)
    (upErr upErr2 insertErr : Bool) (now : Int) (slug : String)
    (uid : String) (pw : Option String) (mins : Int)
    (mv md : Option Int) (f : UploadFile)
    (huid : uid ≠ "") (hmins : 0 < mins) :
    (createPaste db hash upErr insertErr now slug (some uid) pw (some mins)
        mv md (some f)).events
      = [Ev.blobPut ("uploads/" ++ slug ++ "-" ++ f.originalname),
         Ev.dbInsert slug]
    ∧ createPaste db hash upErr insertErr now slug (some uid) pw (some mins)
        mv md (some f)
      = createPaste db hash upErr2 insertErr now slug (some uid) pw (some mins)
        mv md (some f)
    ∧ (createPaste db hash upErr insertErr now slug (some uid) pw (some mins)
        mv md (some f)).result
      = AccessResult.created slug
          (strTruthy (if strTruthy pw then some (hash (pw.getD "")) else none))
    ∧ (insertErr = false →
      (createPaste db hash upErr insertErr now slug (some uid) pw (some mins)
          mv md (some f)).db
        = db ++ [⟨slug, uid, f.originalname, f.mimetype,
                  "uploads/" ++ slug ++ "-" ++ f.originalname,
                  (if strTruthy pw then some (hash (pw.getD "")) else none),
                  some (now + mins * 60 * 1000), mv, md, 0, 0, now⟩]) := by
  have h1 : (uid == "") = false := by simp [huid]
  have h2 : ¬ (mins ≤ 0) := not_le.mpr hmins
  refine ⟨?_, ?_, ?_, ?_⟩
  · simp [createPaste, strTruthy, h1, h2]
  · simp [createPaste, strTruthy, h1, h2]
  · simp [createPaste, strTruthy, h1, h2]
  · intro hins
    simp [createPaste, strTruthy, h1, h2, hins]

theorem C3_create_ordering_witness :
    (createPaste [] (fun s => s) false false 0 "s3w" (some "u") none (some 1)
        none none (some ⟨"g.pdf", "application/pdf", "B"⟩)).events
      = [Ev.blobPut ("uploads/" ++ "s3w" ++ "-" ++ "g.pdf"),
         Ev.dbInsert "s3w"] := by
  have h := C3_create_ordering [] (fun s => s) false true false 0 "s3w" "u"
    none 1 none none ⟨"g.pdf", "application/pdf", "B"⟩ (by decide) (by decide)
  exact h.1

/-! Claim C6. Delete orchestration: select, blob remove, and the metadata
delete only after a successful remove. -/

/-- C6: delete loads the record first (unknown slug answers NotFound, nothing
else touched), then removes the blob; when the removal fails the handler
answers a storage error with the table untouched and without ever issuing the
metadata delete; only after a successful removal is the metadata row deleted. -/
theorem C6_delete_orchestration (db : Db) (removeErr deleteErr : Bool)
    (slug : String) :
    (findRecord db slug = none →
      deletePaste db removeErr deleteErr slug
        = ⟨AccessResult.notFound, db, [Ev.dbSelect slug]⟩)
    ∧ (∀ r, findRecord db slug = some r →
        (removeErr = true →
          deletePaste db removeErr deleteErr slug
            = ⟨AccessResult.storageDeleteFailed, db,
               [Ev.dbSelect slug, Ev.blobRemove r.storagePath]⟩
          ∧ Ev.dbDelete slug ∉ (deletePaste db removeErr deleteErr slug).events)
        ∧ (removeErr = false → deleteErr = false →
          deletePaste db removeErr deleteErr slug
            = ⟨AccessResult.deleted,
               db.filter (fun x => !(x.slug == slug)),
               [Ev.dbSelect slug, Ev.blobRemove r.storagePath,
                Ev.dbDelete slug]⟩)
        ∧ (removeErr = false → deleteErr = true →
          deletePaste db removeErr deleteErr slug
            = ⟨AccessResult.metadataDeleteFailed, db,
               [Ev.dbSelect slug, Ev.blobRemove r.storagePath,
                Ev.dbDelete slug]⟩)) := by
  constructor
  · intro h
    unfold deletePaste
    rw [h]
  · intro r h
    rw [deletePaste_found db removeErr deleteErr slug r h]
    refine ⟨?_, ?_, ?_⟩
    · intro hrem
      subst hrem
      refine ⟨by simp, by simp⟩
    · intro hrem hdel
      subst hrem; subst hdel
      simp
    · intro hrem hdel
      subst hrem; subst hdel
      simp

def rW6 : PasteRecord :=
  ⟨"d6", "u6", "e.pdf", "application/pdf", "uploads/d6-e.pdf",
   none, some 88, none, none, 0, 0, 3⟩

theorem C6_delete_orchestration_witness :
    deletePaste [rW6] true false "d6"
      = ⟨AccessResult.storageDeleteFailed, [rW6],
         [Ev.dbSelect "d6", Ev.blobRemove "uploads/d6-e.pdf"]⟩
    ∧ deletePaste [rW6] false false "d6"
      = ⟨AccessResult.deleted, [],
         [Ev.dbSelect "d6", Ev.blobRemove "uploads/d6-e.pdf",
          Ev.dbDelete "d6"]⟩
    ∧ deletePaste [] true false "d6"
      = ⟨AccessResult.notFound, [], [Ev.dbSelect "d6"]⟩ := by
  refine ⟨((C6_delete_orchestration [rW6] true false "d6").2 rW6
      (by decide)).1 rfl |>.1, ?_, ?_⟩
  · have h := ((C6_delete_orchestration [rW6] false false "d6").2 rW6
      (by decide)).2.1 rfl rfl
    simpa using h
  · exact (C6_delete_orchestration [] true false "d6").1 (by decide)

/-! Claim C7. `previewPaste` touches no counter and ignores limits. -/

/-- C7: Preview is non-consuming and exempt from limits: on any existing record
it leaves the whole table (hence both counters) unchanged, issues no
counter-update call, and — with no limit check anywhere, so even when
`view_count` equals `max_views` — succeeds with the metadata and file body
whenever the blob is available. -/
theorem C7_preview_nonconsuming (db : Db) (blobs : String → Option String)
    (slug : String) (r : PasteRecord)
    (hf : findRecord db slug = some r) :
    (previewPaste db blobs slug).db = db
    ∧ (previewPaste db blobs slug).events
        = [Ev.dbSelect slug, Ev.blobGet r.storagePath]
    ∧ (∀ s n, Ev.dbUpdateView s n ∉ (previewPaste db blobs slug).events
        ∧ Ev.dbUpdateDownload s n ∉ (previewPaste db blobs slug).events)
    ∧ (∀ b, blobs r.storagePath = some b →
        (previewPaste db blobs slug).result
          = AccessResult.previewJson (mkPreviewMeta r) b) := by
  rw [previewPaste_found db blobs slug r hf]
  refine ⟨?_, ?_, ?_, ?_⟩
  · cases hb : blobs r.storagePath <;> simp
  · cases hb : blobs r.storagePath <;> simp
  · intro s n
    cases hb : blobs r.storagePath <;> refine ⟨by simp, by simp⟩
  · intro b hb
    rw [hb]

def rW7 : PasteRecord :=
  ⟨"v7", "u7", "g.pdf", "application/pdf", "uploads/v7-g.pdf",
   some "H7", some 999999, some 3, some 1, 3, 1, 4⟩

theorem C7_preview_nonconsuming_witness :
    (previewPaste [rW7]
        (fun p => if p == "uploads/v7-g.pdf" then some "GG" else none)
        "v7").db = [rW7]
    ∧ (previewPaste [rW7]
        (fun p => if p == "uploads/v7-g.pdf" then some "GG" else none)
        "v7").result
      = AccessResult.previewJson (mkPreviewMeta rW7) "GG"
    ∧ rW7.maxViews = some rW7.viewCount := by
  have h := C7_preview_nonconsuming [rW7]
    (fun p => if p == "uploads/v7-g.pdf" then some "GG" else none)
    "v7" rW7 (by decide)
  exact ⟨h.1, h.2.2.2 "GG" (by decide), by decide⟩

/-! Claim C8. An admitted access increments exactly one counter by one and
changes nothing else. -/

/-- C8: an admitted View maps the table through `setView` with value
`view_count + 1` of the fetched record, so the record reappears as itself with
`viewCount` bumped by exactly 1 and every other field identical; rows with a
different slug are untouched, and `setView` alters no field but `viewCount`.
Symmetrically, an admitted Download bumps only `downloadCount` through
`setDownload`. -/
theorem C8_admitted_increments (db : Db) (blobs : String → Option String)
    (verify : String → String → Bool) (now : Int) (slug : String)
    (pw : Option String) (r : PasteRecord)
    (hf : findRecord db slug = some r)
    (he : isExpiredJs r.expiresAt now = false) :
    (atLimit r.maxViews r.viewCount = false →
      pwGate verify r.passwordHash pw = none →
      (getPaste db blobs verify now slug pw).db
        = db.map (setView slug (r.viewCount + 1))
      ∧ findRecord ((getPaste db blobs verify now slug pw).db) slug
        = some { r with viewCount := r.viewCount + 1 })
    ∧ (atLimit r.maxDownloads r.downloadCount = false →
      (downloadPaste db blobs now slug).db
        = db.map (setDownload slug (r.downloadCount + 1))
      ∧ findRecord ((downloadPaste db blobs now slug).db) slug
        = some { r with downloadCount := r.downloadCount + 1 })
    ∧ (∀ x n, ¬ (x.slug == slug) = true →
        setView slug n x = x ∧ setDownload slug n x = x)
    ∧ (∀ x n, (setView slug n x).slug = x.slug
        ∧ (setView slug n x).userId = x.userId
        ∧ (setView slug n x).filename = x.filename
        ∧ (setView slug n x).mimetype = x.mimetype
        ∧ (setView slug n x).storagePath = x.storagePath
        ∧ (setView slug n x).passwordHash = x.passwordHash
        ∧ (setView slug n x).expiresAt = x.expiresAt
        ∧ (setView slug n x).maxViews = x.maxViews
        ∧ (setView slug n x).maxDownloads = x.maxDownloads
        ∧ (setView slug n x).downloadCount = x.downloadCount
        ∧ (setView slug n x).createdAt = x.createdAt
        ∧ (setDownload slug n x).viewCount = x.viewCount) := by
  have hrs : (r.slug == slug) = true := findRecord_matches db slug r hf
  refine ⟨?_, ?_, ?_, ?_⟩
  · intro hl hg
    have hdb : (getPaste db blobs verify now slug pw).db
        = db.map (setView slug (r.viewCount + 1)) := by
      rw [getPaste_found db blobs verify now slug pw r hf]
      cases hb : blobs r.storagePath <;> simp [he, hl, hg, hb]
    refine ⟨hdb, ?_⟩
    rw [hdb]
    have hfr := findRecord_map_pres (setView slug (r.viewCount + 1))
      (setView_slug_eq slug (r.viewCount + 1)) db slug r hf
    rw [hfr]
    unfold setView
    rw [hrs]
    simp
  · intro hl
    have hdb : (downloadPaste db blobs now slug).db
        = db.map (setDownload slug (r.downloadCount + 1)) := by
      rw [downloadPaste_found db blobs now slug r hf]
      cases hb : blobs r.storagePath <;> simp [he, hl, hb]
    refine ⟨hdb, ?_⟩
    rw [hdb]
    have hfr := findRecord_map_pres (setDownload slug (r.downloadCount + 1))
      (setDownload_slug_eq slug (r.downloadCount + 1)) db slug r hf
    rw [hfr]
    unfold setDownload
    rw [hrs]
    simp
  · intro x n hx
    unfold setView setDownload
    rw [if_neg hx, if_neg hx]
    exact ⟨rfl, rfl⟩
  · intro x n
    unfold setView setDownload
    by_cases hx : (x.slug == slug) = true
    · rw [if_pos hx, if_pos hx]
      refine ⟨rfl, rfl, rfl, rfl, rfl, rfl, rfl, rfl, rfl, rfl, rfl, rfl⟩
    · rw [if_neg hx, if_neg hx]
      refine ⟨rfl, rfl, rfl, rfl, rfl, rfl, rfl, rfl, rfl, rfl, rfl, rfl⟩

def rW8 : PasteRecord :=
  ⟨"a8", "u8", "h.pdf", "application/pdf", "uploads/a8-h.pdf",
   none, some 424242, some 10, some 10, 2, 7, 6⟩

theorem C8_admitted_increments_witness :
    (getPaste [rW8] (fun _ => some "Z") (fun _ _ => false) 9 "a8" none).db
      = [{ rW8 with viewCount := 3 }]
    ∧ findRecord ((downloadPaste [rW8] (fun _ => some "Z") 9 "a8").db) "a8"
      = some { rW8 with downloadCount := 8 } := by
  have h := C8_admitted_increments [rW8] (fun _ => some "Z") (fun _ _ => false)
    9 "a8" none rW8 (by decide) (by decide)
  refine ⟨?_, (h.2.1 (by decide)).2⟩
  have h1 := (h.1 (by decide) (by decide)).1
  rw [h1]
  decide

/-! Claim C9. On the binary-serving handlers a denied decision never reads
the blob: every denial branch returns before the storage download. -/

/-- C9: whenever `getPaste` or `downloadPaste` produces a denying decision
(NotFound, Expired, LimitReached, PasswordRequired or InvalidPassword), the
only external call made is the metadata select: no blob read is ever issued,
so a denied request can receive no file bytes — the blob is read only on the
admitted path. -/
theorem C9_no_bytes_on_denial (db : Db) (blobs : String → Option String)
    (verify : String → String → Bool) (now : Int) (slug : String)
    (pw : Option String) :
    (isDenied (getPaste db blobs verify now slug pw).result = true →
      (getPaste db blobs verify now slug pw).events = [Ev.dbSelect slug]
      ∧ ∀ p, Ev.blobGet p ∉ (getPaste db blobs verify now slug pw).events)
    ∧ (isDenied (downloadPaste db blobs now slug).result = true →
      (downloadPaste db blobs now slug).events = [Ev.dbSelect slug]
      ∧ ∀ p, Ev.blobGet p ∉ (downloadPaste db blobs now slug).events) := by
  constructor
  · intro hden
    cases hfind : findRecord db slug with
    | none =>
      refine ⟨by simp [getPaste, hfind], ?_⟩
      intro p
      simp [getPaste, hfind]
    | some r =>
      rw [getPaste_found db blobs verify now slug pw r hfind] at hden ⊢
      by_cases he : isExpiredJs r.expiresAt now = true
      · refine ⟨by simp [he], by intro p; simp [he]⟩
      · by_cases hl : atLimit r.maxViews r.viewCount = true
        · refine ⟨by simp [he, hl], by intro p; simp [he, hl]⟩
        · cases hg : pwGate verify r.passwordHash pw with
          | some d => refine ⟨by simp [he, hl, hg], by intro p; simp [he, hl, hg]⟩
          | none =>
            exfalso
            cases hb : blobs r.storagePath <;>
              simp [he, hl, hg, hb, isDenied] at hden
  · intro hden
    cases hfind : findRecord db slug with
    | none =>
      refine ⟨by simp [downloadPaste, hfind], ?_⟩
      intro p
      simp [downloadPaste, hfind]
    | some r =>
      rw [downloadPaste_found db blobs now slug r hfind] at hden ⊢
      by_cases he : isExpiredJs r.expiresAt now = true
      · refine ⟨by simp [he], by intro p; simp [he]⟩
      · by_cases hl : atLimit r.maxDownloads r.downloadCount = true
        · refine ⟨by simp [he, hl], by intro p; simp [he, hl]⟩
        · exfalso
          cases hb : blobs r.storagePath <;>
            simp [he, hl, hb, isDenied] at hden

def rW9 : PasteRecord :=
  ⟨"q9", "u9", "k.pdf", "application/pdf", "uploads/q9-k.pdf",
   some "H9", some 333, some 1, some 1, 1, 1, 2⟩

theorem C9_no_bytes_on_denial_witness :
    (getPaste [rW9] (fun _ => some "K") (fun _ _ => true) 5 "q9" none).events
      = [Ev.dbSelect "q9"]
    ∧ Ev.blobGet "uploads/q9-k.pdf"
      ∉ (downloadPaste [rW9] (fun _ => some "K") 5 "q9").events := by
  have h := C9_no_bytes_on_denial [rW9] (fun _ => some "K") (fun _ _ => true)
    5 "q9" none
  exact ⟨(h.1 (by decide)).1, (h.2 (by decide)).2 "uploads/q9-k.pdf"⟩

/-! Claim C10. On the admitted path the counter update is issued before the
blob read, and a failed blob read keeps the incremented table. -/

/-- C10: on an admitted View or Download the external calls are exactly
select, counter update, blob read — the increment reaches the metadata store
strictly before the blob is read — and when the blob retrieval then fails the
handler answers 500 while the table keeps the incremented counter: the unit of
the cap is consumed with no rollback. -/
theorem C10_increment_before_blob (db : Db) (blobs : String → Option String)
    (verify : String → String → Bool) (now : Int) (slug : String)
    (pw : Option String) (r : PasteRecord)
    (hf : findRecord db slug = some r)
    (he : isExpiredJs r.expiresAt now = false) :
    (atLimit r.maxViews r.viewCount = false →
      pwGate verify r.passwordHash pw = none →
      (getPaste db blobs verify now slug pw).events
        = [Ev.dbSelect slug, Ev.dbUpdateView slug (r.viewCount + 1),
           Ev.blobGet r.storagePath]
      ∧ (blobs r.storagePath = none →
          (getPaste db blobs verify now slug pw).result
            = AccessResult.internalError
          ∧ (getPaste db blobs verify now slug pw).db
            = db.map (setView slug (r.viewCount + 1))))
    ∧ (atLimit r.maxDownloads r.downloadCount = false →
      (downloadPaste db blobs now slug).events
        = [Ev.dbSelect slug, Ev.dbUpdateDownload slug (r.downloadCount + 1),
           Ev.blobGet r.storagePath]
      ∧ (blobs r.storagePath = none →
          (downloadPaste db blobs now slug).result
            = AccessResult.internalError
          ∧ (downloadPaste db blobs now slug).db
            = db.map (setDownload slug (r.downloadCount + 1)))) := by
  constructor
  · intro hl hg
    rw [getPaste_found db blobs verify now slug pw r hf]
    constructor
    · cases hb : blobs r.storagePath <;> simp [he, hl, hg, hb]
    · intro hb
      simp [he, hl, hg, hb]
  · intro hl
    rw [downloadPaste_found db blobs now slug r hf]
    constructor
    · cases hb : blobs r.storagePath <;> simp [he, hl, hb]
    · intro hb
      simp [he, hl, hb]

def rW10 : PasteRecord :=
  ⟨"m10", "u10", "n.pdf", "application/pdf", "uploads/m10-n.pdf",
   none, some 123456, some 5, some 5, 0, 0, 1⟩

theorem C10_increment_before_blob_witness :
    (getPaste [rW10] (fun _ => none) (fun _ _ => true) 3 "m10" none).events
      = [Ev.dbSelect "m10", Ev.dbUpdateView "m10" 1,
         Ev.blobGet "uploads/m10-n.pdf"]
    ∧ (getPaste [rW10] (fun _ => none) (fun _ _ => true) 3 "m10" none).result
      = AccessResult.internalError
    ∧ (downloadPaste [rW10] (fun _ => none) 3 "m10").db
      = [{ rW10 with downloadCount := 1 }] := by
  have h := C10_increment_before_blob [rW10] (fun _ => none) (fun _ _ => true)
    3 "m10" none rW10 (by decide) (by decide)
  have hv := h.1 (by decide) (by decide)
  have hd := h.2 (by decide)
  refine ⟨hv.1, (hv.2 rfl).1, ?_⟩
  rw [(hd.2 rfl).2]
  decide
